import Mathlib

/-!
DeployVercel: the deployment handler of `server.js`

A shallow embedding of `src/server.js` (the `POST /deploy` handler, `getUniqueName`,
`isSiteLive` and `logTelegram`) and the properties of it that are checked here.

* JavaScript strings are lists of code points (`Str`); `jsLength` is the `.length` of the
  string, counted in UTF-16 code units.
* Every remote call of the source goes through `fetch`.  The network, `Math.random` and the
  clock are a `World`: total functions of the log of what the request has done so far, so that
  an answer may depend on everything that happened before it.
* Functions of the runtime and of `validator` that the source calls but does not define are
  the fields of a `Lib`; the theorems hold for every `Lib`, and `nodeLib` is the instance used
  to run the model.
* The effectful functions pass the log explicitly: newest event first.
-/

namespace DeployVercel

/-- A JavaScript string, as the list of its code points. -/
abbrev Str := List Char

/-- The `.length` of a JavaScript string: its number of UTF-16 code units. -/
def jsLength (s : Str) : Nat :=
  (s.map fun c => if c.toNat < 65536 then 1 else 2).sum

/-- The code points that `String.prototype.trim` removes: ECMAScript WhiteSpace and
LineTerminator. -/
def isWhiteSpace (c : Char) : Bool :=
  let n := c.toNat
  n == 9 || n == 10 || n == 11 || n == 12 || n == 13 || n == 32 || n == 160 || n == 5760 ||
  (8192 ≤ n && n ≤ 8202) || n == 8232 || n == 8233 || n == 8239 || n == 8287 ||
  n == 12288 || n == 65279

/-- The method `s.trim()`. -/
def trim (s : Str) : Str :=
  ((s.dropWhile isWhiteSpace).reverse.dropWhile isWhiteSpace).reverse

/-- The character class `[a-z0-9-_]` of the regular expression in `getUniqueName`. -/
def allowedChar (c : Char) : Bool :=
  let n := c.toNat
  (97 ≤ n && n ≤ 122) || (48 ≤ n && n ≤ 57) || n == 45 || n == 95

/-- The call `s.replace(/[^a-z0-9-_]/g, '')`. -/
def stripDisallowed (s : Str) : Str :=
  s.filter allowedChar

/-- The call `s.replace(pat, rep)` with a string pattern: the first occurrence only. -/
def replaceFirst (pat rep : Str) : Str → Str
  | [] => if pat = [] then rep else []
  | c :: cs =>
    if pat.isPrefixOf (c :: cs) then rep ++ (c :: cs).drop pat.length
    else c :: replaceFirst pat rep cs

/-- The call `s.split(',')`, the first argument being the piece read so far. -/
def splitComma : Str → Str → List Str
  | piece, [] => [piece]
  | piece, c :: cs =>
    if c = ',' then piece :: splitComma [] cs else splitComma (piece ++ [c]) cs

/-- A value produced by `JSON.parse`, with integer numbers; the members of an object are in
the order in which the object enumerates them. -/
inductive Json where
  | null
  | bool (b : Bool)
  | num (n : Int)
  | str (s : Str)
  | arr (items : List Json)
  | obj (members : List (Str × Json))

/-- Whether a parsed body is an object with an `error` member. -/
def Json.hasErrorField : Json → Bool
  | .obj members => members.any fun m => m.1 == "error".toList
  | _ => false

/-- The functions that `server.js` calls and that neither it nor this development defines:
`String.prototype.toLowerCase` (the Unicode case mapping), `path.extname`,
`validator.escape` and `JSON.stringify` on a parsed body. -/
structure Lib where
  toLowerCase : Str → Str
  extname : Str → Str
  escape : Str → Str
  stringify : Json → Str

/-- The response object that a settled `fetch` resolves to: the status, and what `text()`
and `json()` settle to (an error carries the message of the rejection). -/
structure Response where
  status : Nat
  text : Except Str Str
  json : Except Str Json

/-- The property `res.ok`: a status in the range 200-299. -/
def Response.ok (r : Response) : Bool :=
  200 ≤ r.status && r.status ≤ 299

/-- How a call of `fetch` settles: the promise rejects with an error of the given message,
or resolves to a response. -/
inductive Outcome where
  | rejected (message : Str)
  | resolved (res : Response)

/-- The remote calls of `server.js` reachable from `POST /deploy`, one constructor for each
place where `fetch` is called. -/
inductive Request where
  /-- The call in isSiteLive: HEAD on the url with a timeout of 5000. -/
  | head (url : Str)
  /-- POST https://api.vercel.com/v9/projects with the bearer token and the body { name }. -/
  | createProject (token name : Str)
  /-- POST https://api.vercel.com/v13/deployments with the bearer token, for production,
  with index.html holding the base64 encoding of the buffer. -/
  | createDeployment (token name : Str) (buffer : List Nat)
  /-- POST https://api.telegram.org/bot(tokenBot)/sendMessage with the body { chat_id, text }. -/
  | sendMessage (tokenBot chatId text : Str)

/-- One value returned by `Math.random()`, through the two expressions that consume it:
`r > 0.5` and `Math.floor(r * chars.length)`, which is below 26 because `0 ≤ r < 1`. -/
structure Draw where
  gtHalf : Bool
  index : Fin 26

/-- What a request has done so far, newest first.  `resolve` marks an entry into
`getUniqueName`; it is not an effect of the source. -/
inductive Event where
  | fetch (req : Request) (out : Outcome)
  | random (d : Draw)
  | resolve (rawName : Str)

/-- The log of a request: its events, newest first. -/
abbrev Log := List Event

/-- Everything outside the process: how each `fetch` settles, what each `Math.random()`
returns, and the text of `new Date().toLocaleString('id-ID')`, as functions of the log at
the moment of the call. -/
structure World where
  net : Log → Request → Outcome
  random : Log → Draw
  now : Log → Str

/-- The configuration read from the environment: `token`, `tokenBot`, `chatIds`. -/
structure Config where
  token : Str
  tokenBot : Str
  chatIds : Str

/-- The uploaded file `req.file`. -/
structure File where
  originalname : Str
  buffer : List Nat

/-- The request as the handler reads it: `req.file`, absent when no file was uploaded, and
the text field `req.body.name`, absent when the form has no such field. -/
structure Req where
  file : Option File
  name : Option Str

/-- The JSON payload of the handler's answer. -/
inductive Body where
  /-- The payload { error }. -/
  | error (msg : Str)
  /-- The payload { message: 'Deploy sukses', url }. -/
  | success (url : Str)
deriving DecidableEq

/-- The answer of the handler: HTTP status and payload. -/
structure Res where
  status : Nat
  body : Body
deriving DecidableEq

/-! ## `isSiteLive` and `getUniqueName` -/

/-- The url probed for a name, and reported for a deployment: `https://(name).vercel.app`. -/
def siteUrl (name : Str) : Str :=
  "https://".toList ++ name ++ ".vercel.app".toList

/-- What `isSiteLive` returns for an outcome of its `fetch`: `res.ok`, and false when the
call throws. -/
def Outcome.live : Outcome → Bool
  | .resolved res => res.ok
  | .rejected _ => false

/-- The function `isSiteLive(url)`. -/
def isSiteLive (w : World) (url : Str) (log : Log) : Bool × Log :=
  let out := w.net log (.head url)
  (out.live, .fetch (.head url) out :: log)

/-- The constant `chars` of `randomLetters`. -/
def chars : Str := "abcdefghijklmnopqrstuvwxyz".toList

/-- The function `randomLetters(length)`: the loop appends `chars[Math.floor(Math.random() * 26)]`
to `result`, `length` times. -/
def randomLetters (w : World) : Nat → Str → Log → Str × Log
  | 0, result, log => (result, log)
  | k + 1, result, log =>
    let d := w.random log
    randomLetters w k (result ++ [chars.get (d.index.cast (by rfl))]) (.random d :: log)

/-- The constant `base` of `getUniqueName`:
`rawName.trim().toLowerCase().replace(/[^a-z0-9-_]/g, '').slice(0, 30)`.
After the replacement every character is one code unit, so the slice is `take`. -/
def baseName (lib : Lib) (rawName : Str) : Str :=
  (stripDisallowed (lib.toLowerCase (trim rawName))).take 30

/-- The `for` loop of `getUniqueName`, with the number of rounds left (`3 - i`), `name` and
`attempts`. -/
def nameLoop (w : World) (base : Str) : Nat → Str → Nat → Log → Except Str Str × Log
  | 0, _, _, log => (.error "Nama masih terpakai setelah 3x cek".toList, log)
  | rounds + 1, name, attempts, log =>
    match isSiteLive w (siteUrl name) log with
    | (false, log1) => (.ok name, log1)
    | (true, log1) =>
      let d := w.random log1
      match randomLetters w (if d.gtHalf then 3 else 4) [] (.random d :: log1) with
      | (suffix, log2) =>
        if attempts + 1 > 99 then (.error "Terlalu banyak percobaan nama".toList, log2)
        else nameLoop w base rounds (base ++ suffix) (attempts + 1) log2

/-- The function `getUniqueName(rawName)`: the name it returns, or the message of the error
it throws. -/
def getUniqueName (lib : Lib) (w : World) (rawName : Str) (log : Log) : Except Str Str × Log :=
  nameLoop w (baseName lib rawName) 3 (baseName lib rawName) 0 (.resolve rawName :: log)

/-! ## `logTelegram` -/

/-- The `for (const id of ids)` loop of `logTelegram`: each send is awaited, and a rejected
`fetch` is thrown out of the loop. -/
def sendAll (tokenBot text : Str) (w : World) : List Str → Log → Except Str Unit × Log
  | [], log => (.ok (), log)
  | id :: ids, log =>
    match w.net log (.sendMessage tokenBot id text) with
    | .rejected m => (.error m, .fetch (.sendMessage tokenBot id text) (.rejected m) :: log)
    | .resolved r => sendAll tokenBot text w ids (.fetch (.sendMessage tokenBot id text) (.resolved r) :: log)

/-- The recipients of `logTelegram`: `chatIds.split(',').map(id => id.trim())`. -/
def recipients (chatIds : Str) : List Str :=
  (splitComma [] chatIds).map trim

/-- The text that `logTelegram` sends. -/
def telegramText (file url now : Str) : Str :=
  "TERDETEKSI DEPLOY WEB\n".toList ++ "File : ".toList ++ file ++ "\n".toList ++
  "Link : ".toList ++ url ++ "\n".toList ++ "Jam  : ".toList ++ now

/-- The function `logTelegram(file, url)`. -/
def logTelegram (cfg : Config) (w : World) (file url : Str) (log : Log) : Except Str Unit × Log :=
  if cfg.tokenBot = [] ∨ cfg.chatIds = [] then (.ok (), log)
  else sendAll cfg.tokenBot (telegramText file url (w.now log)) w (recipients cfg.chatIds) log

/-! ## The handler of `POST /deploy` -/

/-- The name the handler starts from:
`req.body.name || req.file.originalname.replace('.html', '')`. -/
def givenName (req : Req) (file : File) : Str :=
  match req.name with
  | some n => if n = [] then replaceFirst ".html".toList [] file.originalname else n
  | none => replaceFirst ".html".toList [] file.originalname

/-- The constant `rawName` of the handler: `validator.escape(given.trim())`. -/
def rawNameOf (lib : Lib) (req : Req) (file : File) : Str :=
  lib.escape (trim (givenName req file))

/-- Lines 90-95 of the handler: the answer of a rejected request, or the file and `rawName`. -/
def validate (lib : Lib) (cfg : Config) (req : Req) : Except Res (File × Str) :=
  match req.file with
  | none => .error ⟨400, .error "File HTML tidak diterima".toList⟩
  | some file =>
    if lib.toLowerCase (lib.extname file.originalname) ≠ ".html".toList then
      .error ⟨400, .error "Hanya menerima file .html".toList⟩
    else if cfg.token = [] then
      .error ⟨500, .error "token belum di-set".toList⟩
    else if rawNameOf lib req file = [] ∨ jsLength (rawNameOf lib req file) < 2 ∨
        jsLength (rawNameOf lib req file) > 30 then
      .error ⟨400, .error "Nama project 2-30 karakter".toList⟩
    else .ok (file, rawNameOf lib req file)

/-- The re-check loop of lines 98-101, with the number of iterations left (`2 - i`). -/
def recheck (lib : Lib) (w : World) (rawName : Str) : Nat → Str → Log → Except Str Str × Log
  | 0, name, log => (.ok name, log)
  | k + 1, name, log =>
    match isSiteLive w (siteUrl name) log with
    | (false, log1) => (.ok name, log1)
    | (true, log1) =>
      match getUniqueName lib w rawName log1 with
      | (.error e, log2) => (.error e, log2)
      | (.ok name2, log2) => recheck lib w rawName k name2 log2

/-- Lines 97-101 of the handler: the name on which the project is created. -/
def resolveName (lib : Lib) (w : World) (rawName : Str) (log : Log) : Except Str Str × Log :=
  match getUniqueName lib w rawName log with
  | (.error e, log1) => (.error e, log1)
  | (.ok name, log1) => recheck lib w rawName 2 name log1

/-- Lines 103-126 of the handler: project creation, deployment and notification for a
resolved name.  The result is the url, or the message of the error thrown. -/
def provision (lib : Lib) (cfg : Config) (w : World) (file : File) (name : Str) (log : Log) :
    Except Str Str × Log :=
  let createReq := Request.createProject cfg.token name
  let createOut := w.net log createReq
  let log1 := Event.fetch createReq createOut :: log
  match createOut with
  | .rejected m => (.error m, log1)
  | .resolved createRes =>
    if !createRes.ok then
      match createRes.text with
      | .error m => (.error m, log1)
      | .ok t => (.error ("Gagal bikin project: ".toList ++ t), log1)
    else
      let deployReq := Request.createDeployment cfg.token name file.buffer
      let deployOut := w.net log1 deployReq
      let log2 := Event.fetch deployReq deployOut :: log1
      match deployOut with
      | .rejected m => (.error m, log2)
      | .resolved deployRes =>
        match deployRes.json with
        | .error m => (.error m, log2)
        | .ok deployJson =>
          if !deployRes.ok then (.error (lib.stringify deployJson), log2)
          else
            match logTelegram cfg w file.originalname (siteUrl name) log2 with
            | (.error m, log3) => (.error m, log3)
            | (.ok _, log3) => (.ok (siteUrl name), log3)

/-- The `try` block after validation: name resolution, then provisioning. -/
def pipeline (lib : Lib) (cfg : Config) (w : World) (file : File) (rawName : Str) :
    Except Str Str × Log :=
  match resolveName lib w rawName [] with
  | (.error e, log) => (.error e, log)
  | (.ok name, log) => provision lib cfg w file name log

/-- The handler of `POST /deploy`: its answer and the log of the request.  The `catch`
answers 500 with `err.message || 'Deploy gagal'`. -/
def deploy (lib : Lib) (cfg : Config) (w : World) (req : Req) : Res × Log :=
  match validate lib cfg req with
  | .error res => (res, [])
  | .ok (file, rawName) =>
    match pipeline lib cfg w file rawName with
    | (.ok url, log) => (⟨200, .success url⟩, log)
    | (.error m, log) => (⟨500, .error (if m = [] then "Deploy gagal".toList else m)⟩, log)

/-! ## The library functions, to run the model

The model of each function that `Lib` leaves open, as Node.js and `validator` define it. -/

/-- The function `String.prototype.toLowerCase` on ASCII letters.  Characters outside ASCII are
left as they are, which is not the Unicode case mapping: this instance is for running the
model on ASCII text. -/
def toLowerCaseAscii (s : Str) : Str :=
  s.map fun c => if 65 ≤ c.toNat ∧ c.toNat ≤ 90 then Char.ofNat (c.toNat + 32) else c

/-- The function `validator.escape`: the chain of replacements of its source, each character
being rewritten at most once because no replacement text contains a character replaced by a
later step. -/
def validatorEscape (s : Str) : Str :=
  s.flatMap fun c =>
    if c = '&' then "&amp;".toList
    else if c.toNat = 34 then "&quot;".toList
    else if c.toNat = 39 then "&#x27;".toList
    else if c = '<' then "&lt;".toList
    else if c = '>' then "&gt;".toList
    else if c = '/' then "&#x2F;".toList
    else if c.toNat = 92 then "&#x5C;".toList
    else if c.toNat = 96 then "&#96;".toList
    else [c]

/-- The variables of the loop of `path.posix.extname`; `none` stands for `-1`. -/
structure ExtScan where
  startDot : Option Nat
  startPart : Nat
  endPos : Option Nat
  matchedSlash : Bool
  preDotState : Int

/-- The loop of `path.posix.extname`, from the last character to the first: the list holds
`path[i], path[i-1], ..., path[0]`. -/
def extnameLoop : Str → ExtScan → ExtScan
  | [], st => st
  | c :: rest, st =>
    let i := rest.length
    if c = '/' then
      if !st.matchedSlash then { st with startPart := i + 1 }
      else extnameLoop rest st
    else
      let st1 := if st.endPos = none then { st with matchedSlash := false, endPos := some (i + 1) } else st
      let st2 :=
        if c = '.' then
          if st1.startDot = none then { st1 with startDot := some i }
          else if st1.preDotState ≠ 1 then { st1 with preDotState := 1 }
          else st1
        else if st1.startDot ≠ none then { st1 with preDotState := -1 }
        else st1
      extnameLoop rest st2

/-- The function `path.extname` of Node.js on POSIX. -/
def extname (path : Str) : Str :=
  let st := extnameLoop path.reverse ⟨none, 0, none, true, 0⟩
  match st.startDot, st.endPos with
  | some startDot, some endPos =>
    if st.preDotState = 0 ∨
        (st.preDotState = 1 ∧ startDot = endPos - 1 ∧ startDot = st.startPart + 1) then []
    else (path.drop startDot).take (endPos - startDot)
  | _, _ => []

/-- A character inside a JSON string literal, as `JSON.stringify` writes it. -/
def quoteChar (c : Char) : Str :=
  if c.toNat = 34 then [Char.ofNat 92, Char.ofNat 34]
  else if c.toNat = 92 then [Char.ofNat 92, Char.ofNat 92]
  else if c.toNat = 8 then [Char.ofNat 92, 'b']
  else if c.toNat = 12 then [Char.ofNat 92, 'f']
  else if c.toNat = 10 then [Char.ofNat 92, 'n']
  else if c.toNat = 13 then [Char.ofNat 92, 'r']
  else if c.toNat = 9 then [Char.ofNat 92, 't']
  else if c.toNat < 32 then
    [Char.ofNat 92, 'u', '0', '0', "0123456789abcdef".toList.getD (c.toNat / 16) '0',
      "0123456789abcdef".toList.getD (c.toNat % 16) '0']
  else [c]

/-- A JSON string literal. -/
def quote (s : Str) : Str :=
  Char.ofNat 34 :: s.flatMap quoteChar ++ [Char.ofNat 34]

mutual
/-- The function `JSON.stringify` on a parsed value. -/
def stringify : Json → Str
  | .null => "null".toList
  | .bool true => "true".toList
  | .bool false => "false".toList
  | .num n => (toString n).toList
  | .str s => quote s
  | .arr items => '[' :: stringifyItems items ++ [']']
  | .obj members => Char.ofNat 123 :: stringifyMembers members ++ [Char.ofNat 125]
/-- The elements of an array, separated by commas. -/
def stringifyItems : List Json → Str
  | [] => []
  | [j] => stringify j
  | j :: k :: js => stringify j ++ ',' :: stringifyItems (k :: js)
/-- The members of an object, separated by commas. -/
def stringifyMembers : List (Str × Json) → Str
  | [] => []
  | [(key, j)] => quote key ++ ':' :: stringify j
  | (key, j) :: m :: ms => quote key ++ ':' :: stringify j ++ ',' :: stringifyMembers (m :: ms)
end

/-- The library as Node.js on POSIX and `validator` provide it, for ASCII text. -/
def nodeLib : Lib :=
  ⟨toLowerCaseAscii, extname, validatorEscape, stringify⟩

/-! ## Observations on logs -/

/-- A liveness probe: a `fetch` issued by `isSiteLive`. -/
def Event.isProbe : Event → Bool
  | .fetch (.head _) _ => true
  | _ => false

/-- A remote call: any `fetch`. -/
def Event.isFetch : Event → Bool
  | .fetch _ _ => true
  | _ => false

/-- A call of `Math.random()`. -/
def Event.isRandom : Event → Bool
  | .random _ => true
  | _ => false

/-- An entry into `getUniqueName`. -/
def Event.isResolve : Event → Bool
  | .resolve _ => true
  | _ => false

/-- The project-creation call. -/
def Event.isCreate : Event → Bool
  | .fetch (.createProject _ _) _ => true
  | _ => false

/-- A send to the messaging endpoint. -/
def Event.isSend : Event → Bool
  | .fetch (.sendMessage _ _ _) _ => true
  | _ => false

/-- An event of name resolution: a probe, a call of `Math.random()` or an entry into
`getUniqueName`. -/
def Event.isNaming (e : Event) : Bool :=
  e.isProbe || e.isRandom || e.isResolve

/-- An event after project creation: the deployment call or a send. -/
def Event.isDelivery : Event → Bool
  | .fetch (.createDeployment _ _ _) _ => true
  | .fetch (.sendMessage _ _ _) _ => true
  | _ => false

/-- The most recent liveness probe of a log: its url and what `isSiteLive` returned. -/
def lastProbe : Log → Option (Str × Bool)
  | [] => none
  | .fetch (.head url) out :: _ => some (url, out.live)
  | _ :: rest => lastProbe rest

/-- The recipients to which a send was attempted, oldest first. -/
def sentTo : Log → List Str
  | [] => []
  | .fetch (.sendMessage _ chatId _) _ :: rest => sentTo rest ++ [chatId]
  | _ :: rest => sentTo rest

/-- The number of liveness probes of a log. -/
def probes (log : Log) : Nat := log.countP Event.isProbe

/-- The number of remote calls of a log. -/
def remoteCalls (log : Log) : Nat := log.countP Event.isFetch

/-- The number of entries into `getUniqueName` of a log. -/
def resolutions (log : Log) : Nat := log.countP Event.isResolve

/-! ## Worlds to run the model -/

/-- A response with the given status and JSON body, `text()` giving the given text. -/
def respond (status : Nat) (text : Str) (json : Json) : Outcome :=
  .resolved ⟨status, .ok text, .ok json⟩

/-- A world in which exactly the sites of the listed names answer a HEAD request (with
status 200; for every other site the request fails), the provider and the messaging endpoint
settle as given, every `Math.random()` is above one half with letter index 13 (the letter n),
and the clock is fixed. -/
def scriptedWorld (liveSites : List Str) (create deploy send : Outcome) : World where
  net := fun _ req =>
    match req with
    | .head url =>
      if liveSites.any (fun n => siteUrl n == url) then respond 200 [] .null
      else .rejected "getaddrinfo ENOTFOUND".toList
    | .createProject _ _ => create
    | .createDeployment _ _ _ => deploy
    | .sendMessage _ _ _ => send
  random := fun _ => ⟨true, 13⟩
  now := fun _ => "1/1/2025, 00.00.00".toList

/-- A world without network problems for the provider: no site is live, project creation
answers 200 and the deployment answers 200 with the given JSON body; the messaging endpoint
settles as given. -/
def providerWorld (deployJson : Json) (send : Outcome) : World :=
  scriptedWorld [] (respond 200 [] .null) (respond 200 [] deployJson) send

/-- A name of 30 characters. -/
def longName : Str := List.replicate 30 'a'

/-- A configuration with the provider token only. -/
def tokenOnly : Config := ⟨"tok".toList, [], []⟩

/-- A configuration with the provider token and a notification channel of two recipients. -/
def notifyConfig : Config := ⟨"tok".toList, "bot".toList, "111, 222".toList⟩

/-- The upload of `hello.html` without a `name` field. -/
def helloReq : Req := ⟨some ⟨"hello.html".toList, [60, 112, 62, 104, 105]⟩, none⟩

/-- The body of a deployment answer that describes the deployment. -/
def deployedJson : Json := .obj [("url".toList, .str "hello.vercel.app".toList)]

/-- The body of a deployment answer that encodes an error. -/
def errorJson : Json :=
  .obj [("error".toList, .obj [("code".toList, .str "forbidden".toList),
    ("message".toList, .str "Not authorized".toList)])]

/-- A world in which every site answers a HEAD request with status 200. -/
def allLiveWorld : World where
  net := fun _ _ => respond 200 [] .null
  random := fun _ => ⟨true, 13⟩
  now := fun _ => "1/1/2025, 00.00.00".toList

/-! ## Lemmas on strings -/

theorem allowedChar_toNat_lt {c : Char} (h : allowedChar c = true) : c.toNat < 65536 := by
  simp only [allowedChar, Bool.or_eq_true, Bool.and_eq_true, decide_eq_true_eq, beq_iff_eq] at h
  omega

theorem jsLength_of_allowed : ∀ s : Str, (∀ c ∈ s, allowedChar c = true) → jsLength s = s.length
  | [], _ => rfl
  | c :: cs, h => by
    have hc := allowedChar_toNat_lt (h c (List.mem_cons_self _ _))
    have ih := jsLength_of_allowed cs (fun d hd => h d (List.mem_cons_of_mem _ hd))
    simp only [jsLength, List.map_cons, List.sum_cons, List.length_cons] at ih ⊢
    rw [if_pos hc, ih]; omega

theorem baseName_allowed (lib : Lib) (rawName : Str) :
    ∀ c ∈ baseName lib rawName, allowedChar c = true := by
  intro c hc
  have h1 := List.mem_of_mem_take hc
  simp only [stripDisallowed, List.mem_filter] at h1
  exact h1.2

theorem baseName_length (lib : Lib) (rawName : Str) : (baseName lib rawName).length ≤ 30 := by
  simp only [baseName, List.length_take]
  exact Nat.min_le_left _ _

theorem chars_allowed (i : Fin chars.length) : allowedChar (chars.get i) = true := by
  revert i
  decide

/-! ## Lemmas on `randomLetters` and `nameLoop` -/

theorem randomLetters_fst (w : World) : ∀ (k : Nat) (result : Str) (log : Log),
    ∃ s : Str, (randomLetters w k result log).1 = result ++ s ∧ s.length = k ∧
      ∀ c ∈ s, allowedChar c = true
  | 0, result, log => ⟨[], by simp [randomLetters]⟩
  | k + 1, result, log => by
    obtain ⟨s, h1, h2, h3⟩ := randomLetters_fst w k
      (result ++ [chars.get ((w.random log).index.cast (by rfl))]) (.random (w.random log) :: log)
    refine ⟨chars.get ((w.random log).index.cast (by rfl)) :: s, ?_, by simp [h2], ?_⟩
    · simp only [randomLetters, h1, List.append_assoc, List.singleton_append]
    · intro c hc
      rcases List.mem_cons.mp hc with rfl | hc
      · exact chars_allowed _
      · exact h3 c hc

theorem randomLetters_log (w : World) : ∀ (k : Nat) (result : Str) (log : Log),
    ∃ new : Log, (randomLetters w k result log).2 = new ++ log ∧ new.length = k ∧
      ∀ e ∈ new, e.isRandom = true
  | 0, result, log => ⟨[], by simp [randomLetters]⟩
  | k + 1, result, log => by
    obtain ⟨new, h1, h2, h3⟩ := randomLetters_log w k
      (result ++ [chars.get ((w.random log).index.cast (by rfl))]) (.random (w.random log) :: log)
    refine ⟨new ++ [.random (w.random log)], ?_, by simp [h2], ?_⟩
    · simp only [randomLetters, h1, List.append_assoc, List.singleton_append]
    · intro e he
      rcases List.mem_append.mp he with he | he
      · exact h3 e he
      · simp only [List.mem_singleton] at he
        subst he
        rfl

theorem nameLoop_ok (w : World) (base : Str) : ∀ (rounds : Nat) (name : Str) (attempts : Nat)
    (log : Log) (n : Str) (log' : Log),
    nameLoop w base rounds name attempts log = (.ok n, log') →
    ∃ rest, log' = .fetch (.head (siteUrl n)) (w.net rest (.head (siteUrl n))) :: rest ∧
      (w.net rest (.head (siteUrl n))).live = false
  | 0, name, attempts, log, n, log' => by
    intro h
    simp [nameLoop] at h
  | rounds + 1, name, attempts, log, n, log' => by
    intro h
    cases hl : (w.net log (.head (siteUrl name))).live
    · simp only [nameLoop, isSiteLive, hl, Prod.mk.injEq, Except.ok.injEq] at h
      obtain ⟨rfl, rfl⟩ := h
      exact ⟨log, rfl, hl⟩
    · simp only [nameLoop, isSiteLive, hl] at h
      split at h
      · simp at h
      · exact nameLoop_ok w base rounds _ _ _ n log' h

theorem nameLoop_name (w : World) (base : Str) (hbase : ∀ c ∈ base, allowedChar c = true) :
    ∀ (rounds : Nat) (name : Str) (attempts : Nat) (log : Log) (n : Str) (log' : Log),
    ((∀ c ∈ name, allowedChar c = true) ∧ name.length ≤ base.length + 4) →
    nameLoop w base rounds name attempts log = (.ok n, log') →
    (∀ c ∈ n, allowedChar c = true) ∧ n.length ≤ base.length + 4
  | 0, name, attempts, log, n, log' => by
    intro _ h
    simp [nameLoop] at h
  | rounds + 1, name, attempts, log, n, log' => by
    intro hname h
    cases hl : (w.net log (.head (siteUrl name))).live
    · simp only [nameLoop, isSiteLive, hl, Prod.mk.injEq, Except.ok.injEq] at h
      obtain ⟨rfl, _⟩ := h
      exact hname
    · simp only [nameLoop, isSiteLive, hl] at h
      split at h
      · simp at h
      · refine nameLoop_name w base hbase rounds _ _ _ n log' ?_ h
        obtain ⟨s, h1, h2, h3⟩ := randomLetters_fst w
          (if (w.random (.fetch (.head (siteUrl name)) (w.net log (.head (siteUrl name))) :: log)).gtHalf
            then 3 else 4) []
          (.random (w.random (.fetch (.head (siteUrl name)) (w.net log (.head (siteUrl name))) :: log)) ::
            .fetch (.head (siteUrl name)) (w.net log (.head (siteUrl name))) :: log)
        rw [h1]
        constructor
        · intro c hc
          simp only [List.nil_append, List.mem_append] at hc
          rcases hc with hc | hc
          · exact hbase c hc
          · exact h3 c hc
        · simp only [List.nil_append, List.length_append, h2]
          split <;> omega

theorem nameLoop_log (w : World) (base : Str) : ∀ (rounds : Nat) (name : Str) (attempts : Nat)
    (log : Log),
    ∃ new : Log, (nameLoop w base rounds name attempts log).2 = new ++ log ∧
      ∀ e ∈ new, e.isProbe = true ∨ e.isRandom = true
  | 0, name, attempts, log => ⟨[], by simp [nameLoop]⟩
  | rounds + 1, name, attempts, log => by
    cases hl : (w.net log (.head (siteUrl name))).live
    · refine ⟨[.fetch (.head (siteUrl name)) (w.net log (.head (siteUrl name)))], ?_, ?_⟩
      · simp only [nameLoop, isSiteLive, hl, List.singleton_append]
      · intro e he
        simp only [List.mem_singleton] at he
        subst he
        exact Or.inl rfl
    · obtain ⟨new1, h1, _, h3⟩ := randomLetters_log w
          (if (w.random (.fetch (.head (siteUrl name)) (w.net log (.head (siteUrl name))) :: log)).gtHalf
            then 3 else 4) []
          (.random (w.random (.fetch (.head (siteUrl name)) (w.net log (.head (siteUrl name))) :: log)) ::
            .fetch (.head (siteUrl name)) (w.net log (.head (siteUrl name))) :: log)
      have hmem : ∀ e ∈ new1 ++ [.random (w.random (.fetch (.head (siteUrl name))
          (w.net log (.head (siteUrl name))) :: log)),
          .fetch (.head (siteUrl name)) (w.net log (.head (siteUrl name)))],
          e.isProbe = true ∨ e.isRandom = true := by
        intro e he
        rcases List.mem_append.mp he with he | he
        · exact Or.inr (h3 e he)
        · simp only [List.mem_cons, List.mem_singleton, List.not_mem_nil, or_false] at he
          rcases he with rfl | rfl
          · exact Or.inr rfl
          · exact Or.inl rfl
      simp only [nameLoop, isSiteLive, hl]
      split
      · exact ⟨_, by rw [h1]; simp, hmem⟩
      · obtain ⟨new2, h4, h5⟩ := nameLoop_log w base rounds
          (base ++ (randomLetters w
            (if (w.random (.fetch (.head (siteUrl name)) (w.net log (.head (siteUrl name))) :: log)).gtHalf
              then 3 else 4) []
            (.random (w.random (.fetch (.head (siteUrl name)) (w.net log (.head (siteUrl name))) :: log)) ::
              .fetch (.head (siteUrl name)) (w.net log (.head (siteUrl name))) :: log)).1)
          (attempts + 1)
          (randomLetters w
            (if (w.random (.fetch (.head (siteUrl name)) (w.net log (.head (siteUrl name))) :: log)).gtHalf
              then 3 else 4) []
            (.random (w.random (.fetch (.head (siteUrl name)) (w.net log (.head (siteUrl name))) :: log)) ::
              .fetch (.head (siteUrl name)) (w.net log (.head (siteUrl name))) :: log)).2
        refine ⟨new2 ++ (new1 ++ [.random (w.random (.fetch (.head (siteUrl name))
          (w.net log (.head (siteUrl name))) :: log)),
          .fetch (.head (siteUrl name)) (w.net log (.head (siteUrl name)))]), ?_, ?_⟩
        · rw [h4, h1]; simp
        · intro e he
          rcases List.mem_append.mp he with he | he
          · exact h5 e he
          · exact hmem e he

theorem countP_of_forall_false (p : Event → Bool) : ∀ new : Log, (∀ e ∈ new, p e = false) →
    new.countP p = 0
  | [], _ => rfl
  | e :: rest, h => by
    rw [List.countP_cons_of_neg]
    · exact countP_of_forall_false p rest (fun d hd => h d (List.mem_cons_of_mem _ hd))
    · simp [h e (List.mem_cons_self _ _)]

theorem nameLoop_all_live (w : World) (base : Str)
    (hlive : ∀ (l : Log) (url : Str), (w.net l (.head url)).live = true) :
    ∀ (rounds : Nat) (name : Str) (attempts : Nat) (log : Log), attempts + rounds ≤ 99 →
    (nameLoop w base rounds name attempts log).1 =
        .error "Nama masih terpakai setelah 3x cek".toList ∧
      probes (nameLoop w base rounds name attempts log).2 = probes log + rounds ∧
      remoteCalls (nameLoop w base rounds name attempts log).2 = remoteCalls log + rounds
  | 0, name, attempts, log => by
    intro _
    simp [nameLoop]
  | rounds + 1, name, attempts, log => by
    intro hle
    obtain ⟨new1, h1, _, h3⟩ := randomLetters_log w
      (if (w.random (.fetch (.head (siteUrl name)) (w.net log (.head (siteUrl name))) :: log)).gtHalf
        then 3 else 4) []
      (.random (w.random (.fetch (.head (siteUrl name)) (w.net log (.head (siteUrl name))) :: log)) ::
        .fetch (.head (siteUrl name)) (w.net log (.head (siteUrl name))) :: log)
    have ih := nameLoop_all_live w base hlive rounds
      (base ++ (randomLetters w
        (if (w.random (.fetch (.head (siteUrl name)) (w.net log (.head (siteUrl name))) :: log)).gtHalf
          then 3 else 4) []
        (.random (w.random (.fetch (.head (siteUrl name)) (w.net log (.head (siteUrl name))) :: log)) ::
          .fetch (.head (siteUrl name)) (w.net log (.head (siteUrl name))) :: log)).1)
      (attempts + 1)
      (randomLetters w
        (if (w.random (.fetch (.head (siteUrl name)) (w.net log (.head (siteUrl name))) :: log)).gtHalf
          then 3 else 4) []
        (.random (w.random (.fetch (.head (siteUrl name)) (w.net log (.head (siteUrl name))) :: log)) ::
          .fetch (.head (siteUrl name)) (w.net log (.head (siteUrl name))) :: log)).2
      (by omega)
    have hp : new1.countP Event.isProbe = 0 :=
      countP_of_forall_false _ new1 (fun e he => by
        have := h3 e he
        cases e <;> simp_all [Event.isRandom, Event.isProbe])
    have hf : new1.countP Event.isFetch = 0 :=
      countP_of_forall_false _ new1 (fun e he => by
        have := h3 e he
        cases e <;> simp_all [Event.isRandom, Event.isFetch])
    have hnot : ¬ (attempts + 1 > 99) := by omega
    simp only [nameLoop, isSiteLive, hlive, if_neg hnot]
    refine ⟨ih.1, ?_, ?_⟩
    · rw [ih.2.1, h1]
      simp only [probes, List.countP_append, hp, List.countP_cons, Event.isProbe]
      simp
      omega
    · rw [ih.2.2, h1]
      simp only [remoteCalls, List.countP_append, hf, List.countP_cons, Event.isFetch]
      simp
      omega

theorem getUniqueName_log (lib : Lib) (w : World) (rawName : Str) (log : Log) :
    ∃ new : Log, (getUniqueName lib w rawName log).2 = new ++ .resolve rawName :: log ∧
      ∀ e ∈ new, e.isProbe = true ∨ e.isRandom = true :=
  nameLoop_log w (baseName lib rawName) 3 (baseName lib rawName) 0 (.resolve rawName :: log)

theorem getUniqueName_ok (lib : Lib) (w : World) (rawName : Str) (log : Log) (n : Str)
    (log' : Log) (h : getUniqueName lib w rawName log = (.ok n, log')) :
    lastProbe log' = some (siteUrl n, false) := by
  obtain ⟨rest, h1, h2⟩ := nameLoop_ok w (baseName lib rawName) 3 (baseName lib rawName) 0
    (.resolve rawName :: log) n log' h
  rw [h1]
  simp only [lastProbe, h2]

theorem naming_of_probe_or_random {new : Log}
    (h : ∀ e ∈ new, e.isProbe = true ∨ e.isRandom = true) : ∀ e ∈ new, e.isNaming = true := by
  intro e he
  rcases h e he with h1 | h1 <;> simp [Event.isNaming, h1]

theorem resolutions_of_probe_or_random {new : Log}
    (h : ∀ e ∈ new, e.isProbe = true ∨ e.isRandom = true) : resolutions new = 0 :=
  countP_of_forall_false _ new (fun e he => by
    have := h e he
    cases e with
    | fetch r o => rfl
    | random d => rfl
    | resolve n => simp [Event.isProbe, Event.isRandom] at this)

theorem resolutions_append (a b : Log) : resolutions (a ++ b) = resolutions a + resolutions b := by
  simp only [resolutions, List.countP_append]

theorem recheck_log (lib : Lib) (w : World) (rawName : Str) : ∀ (k : Nat) (name : Str)
    (log : Log),
    ∃ new : Log, (recheck lib w rawName k name log).2 = new ++ log ∧
      (∀ e ∈ new, e.isNaming = true) ∧ resolutions new ≤ k
  | 0, name, log => ⟨[], by simp [recheck, resolutions]⟩
  | k + 1, name, log => by
    have hprobe : (Event.fetch (.head (siteUrl name)) (w.net log (.head (siteUrl name)))).isNaming
        = true := rfl
    cases hl : (w.net log (.head (siteUrl name))).live
    · refine ⟨[.fetch (.head (siteUrl name)) (w.net log (.head (siteUrl name)))], ?_, ?_, ?_⟩
      · simp only [recheck, isSiteLive, hl, List.singleton_append]
      · intro e he
        simp only [List.mem_singleton] at he
        subst he
        rfl
      · simp [resolutions, Event.isResolve]
    · obtain ⟨new1, h1, h2⟩ := getUniqueName_log lib w rawName
        (.fetch (.head (siteUrl name)) (w.net log (.head (siteUrl name))) :: log)
      have hmem : ∀ e ∈ new1 ++ [.resolve rawName,
          .fetch (.head (siteUrl name)) (w.net log (.head (siteUrl name)))],
          e.isNaming = true := by
        intro e he
        rcases List.mem_append.mp he with he | he
        · exact naming_of_probe_or_random h2 e he
        · simp only [List.mem_cons, List.mem_singleton, List.not_mem_nil, or_false] at he
          rcases he with rfl | rfl <;> rfl
      have hcount : resolutions (new1 ++ [.resolve rawName,
          .fetch (.head (siteUrl name)) (w.net log (.head (siteUrl name)))]) = 1 := by
        rw [resolutions_append, resolutions_of_probe_or_random h2]
        simp [resolutions, Event.isResolve]
      simp only [recheck, isSiteLive, hl]
      split
      · next e log2 heq =>
        refine ⟨_, ?_, hmem, by omega⟩
        have : log2 = (getUniqueName lib w rawName
            (.fetch (.head (siteUrl name)) (w.net log (.head (siteUrl name))) :: log)).2 := by
          rw [heq]
        rw [this, h1]
        simp
      · next name2 log2 heq =>
        have hlog2 : log2 = (getUniqueName lib w rawName
            (.fetch (.head (siteUrl name)) (w.net log (.head (siteUrl name))) :: log)).2 := by
          rw [heq]
        obtain ⟨new2, h4, h5, h6⟩ := recheck_log lib w rawName k name2 log2
        refine ⟨new2 ++ (new1 ++ [.resolve rawName,
          .fetch (.head (siteUrl name)) (w.net log (.head (siteUrl name)))]), ?_, ?_, ?_⟩
        · rw [h4, hlog2, h1]
          simp
        · intro e he
          rcases List.mem_append.mp he with he | he
          · exact h5 e he
          · exact hmem e he
        · rw [resolutions_append, hcount]
          omega

theorem recheck_ok (lib : Lib) (w : World) (rawName : Str) : ∀ (k : Nat) (name : Str)
    (log : Log) (n : Str) (log' : Log), lastProbe log = some (siteUrl name, false) →
    recheck lib w rawName k name log = (.ok n, log') → lastProbe log' = some (siteUrl n, false)
  | 0, name, log, n, log' => by
    intro h0 h
    simp only [recheck, Prod.mk.injEq, Except.ok.injEq] at h
    obtain ⟨rfl, rfl⟩ := h
    exact h0
  | k + 1, name, log, n, log' => by
    intro _ h
    cases hl : (w.net log (.head (siteUrl name))).live
    · simp only [recheck, isSiteLive, hl, Prod.mk.injEq, Except.ok.injEq] at h
      obtain ⟨rfl, rfl⟩ := h
      simp only [lastProbe, hl]
    · simp only [recheck, isSiteLive, hl] at h
      split at h
      · simp at h
      · next name2 log2 heq =>
        exact recheck_ok lib w rawName k name2 log2 n log'
          (getUniqueName_ok lib w rawName _ name2 log2 heq) h

theorem resolveName_log (lib : Lib) (w : World) (rawName : Str) (log : Log) :
    ∃ new : Log, (resolveName lib w rawName log).2 = new ++ .resolve rawName :: log ∧
      (∀ e ∈ new, e.isNaming = true) ∧ resolutions new ≤ 2 := by
  obtain ⟨new1, h1, h2⟩ := getUniqueName_log lib w rawName log
  simp only [resolveName]
  split
  · next e log1 heq =>
    have : log1 = (getUniqueName lib w rawName log).2 := by rw [heq]
    exact ⟨new1, by rw [this, h1], naming_of_probe_or_random h2,
      by rw [resolutions_of_probe_or_random h2]; omega⟩
  · next name log1 heq =>
    have hlog1 : log1 = (getUniqueName lib w rawName log).2 := by rw [heq]
    obtain ⟨new2, h4, h5, h6⟩ := recheck_log lib w rawName 2 name log1
    refine ⟨new2 ++ new1, ?_, ?_, ?_⟩
    · rw [h4, hlog1, h1]
      simp
    · intro e he
      rcases List.mem_append.mp he with he | he
      · exact h5 e he
      · exact naming_of_probe_or_random h2 e he
    · rw [resolutions_append, resolutions_of_probe_or_random h2]
      omega

theorem resolveName_ok (lib : Lib) (w : World) (rawName : Str) (log : Log) (n : Str)
    (log' : Log) (h : resolveName lib w rawName log = (.ok n, log')) :
    lastProbe log' = some (siteUrl n, false) := by
  simp only [resolveName] at h
  split at h
  · simp at h
  · next name log1 heq =>
    exact recheck_ok lib w rawName 2 name log1 n log'
      (getUniqueName_ok lib w rawName log name log1 heq) h

/-! ## Lemmas on `logTelegram`, `provision` and the handler -/

theorem sendAll_log (tokenBot text : Str) (w : World) : ∀ (ids : List Str) (log : Log),
    ∃ new : Log, (sendAll tokenBot text w ids log).2 = new ++ log ∧ ∀ e ∈ new, e.isSend = true
  | [], log => ⟨[], by simp [sendAll]⟩
  | id :: ids, log => by
    cases hout : w.net log (.sendMessage tokenBot id text) with
    | rejected m =>
      refine ⟨[.fetch (.sendMessage tokenBot id text) (.rejected m)], ?_, ?_⟩
      · simp only [sendAll, hout, List.singleton_append]
      · intro e he
        simp only [List.mem_singleton] at he
        subst he
        rfl
    | resolved r =>
      obtain ⟨new, h1, h2⟩ := sendAll_log tokenBot text w ids
        (.fetch (.sendMessage tokenBot id text) (.resolved r) :: log)
      refine ⟨new ++ [.fetch (.sendMessage tokenBot id text) (.resolved r)], ?_, ?_⟩
      · simp only [sendAll, hout, h1, List.append_assoc, List.singleton_append]
      · intro e he
        rcases List.mem_append.mp he with he | he
        · exact h2 e he
        · simp only [List.mem_singleton] at he
          subst he
          rfl

theorem logTelegram_log (cfg : Config) (w : World) (file url : Str) (log : Log) :
    ∃ new : Log, (logTelegram cfg w file url log).2 = new ++ log ∧ ∀ e ∈ new, e.isSend = true := by
  simp only [logTelegram]
  split
  · exact ⟨[], rfl, by simp⟩
  · exact sendAll_log _ _ w _ log

theorem delivery_of_send {e : Event} (h : e.isSend = true) : e.isDelivery = true := by
  cases e with
  | fetch r o => cases r <;> simp_all [Event.isSend, Event.isDelivery]
  | random d => simp [Event.isSend] at h
  | resolve n => simp [Event.isSend] at h

theorem provision_log (lib : Lib) (cfg : Config) (w : World) (file : File) (name : Str)
    (log : Log) :
    ∃ post : Log, (provision lib cfg w file name log).2 =
        post ++ .fetch (.createProject cfg.token name) (w.net log (.createProject cfg.token name))
          :: log ∧
      ∀ e ∈ post, e.isDelivery = true := by
  simp only [provision]
  split
  · exact ⟨[], rfl, by simp⟩
  · split
    · split <;> exact ⟨[], rfl, by simp⟩
    · split
      · exact ⟨[_], rfl, by simp [Event.isDelivery]⟩
      · split
        · exact ⟨[_], rfl, by simp [Event.isDelivery]⟩
        · split
          · exact ⟨[_], rfl, by simp [Event.isDelivery]⟩
          · obtain ⟨new, h1, h2⟩ := logTelegram_log cfg w file.originalname (siteUrl name)
              (.fetch (.createDeployment cfg.token name file.buffer)
                  (w.net (.fetch (.createProject cfg.token name)
                    (w.net log (.createProject cfg.token name)) :: log)
                    (.createDeployment cfg.token name file.buffer)) ::
                .fetch (.createProject cfg.token name)
                  (w.net log (.createProject cfg.token name)) :: log)
            have hmem : ∀ e ∈ new ++ [Event.fetch (.createDeployment cfg.token name file.buffer)
                (w.net (.fetch (.createProject cfg.token name)
                  (w.net log (.createProject cfg.token name)) :: log)
                  (.createDeployment cfg.token name file.buffer))], e.isDelivery = true := by
              intro e he
              rcases List.mem_append.mp he with he | he
              · exact delivery_of_send (h2 e he)
              · simp only [List.mem_singleton] at he
                subst he
                rfl
            split
            · next m log3 heq =>
              refine ⟨_, ?_, hmem⟩
              have h3 := congrArg Prod.snd heq
              simp only [h1] at h3
              rw [← h3]
              simp
            · next u log3 heq =>
              refine ⟨_, ?_, hmem⟩
              have h3 := congrArg Prod.snd heq
              simp only [h1] at h3
              rw [← h3]
              simp

theorem split_unique (p : Event → Bool) : ∀ (post post' : Log) (c c' : Event) (pre pre' : Log),
    (∀ e ∈ post, p e = false) → (∀ e ∈ pre, p e = false) → p c' = true →
    post ++ c :: pre = post' ++ c' :: pre' → c' = c ∧ pre' = pre
  | [], [], c, c', pre, pre' => by
    intro _ _ _ h
    simp only [List.nil_append, List.cons.injEq] at h
    exact ⟨h.1.symm, h.2.symm⟩
  | [], x :: xs, c, c', pre, pre' => by
    intro _ hpre hc h
    simp only [List.nil_append, List.cons_append, List.cons.injEq] at h
    have : c' ∈ pre := by rw [h.2]; simp
    rw [hpre c' this] at hc
    exact absurd hc (by simp)
  | y :: ys, [], c, c', pre, pre' => by
    intro hpost _ hc h
    simp only [List.nil_append, List.cons_append, List.cons.injEq] at h
    have := hpost y (List.mem_cons_self _ _)
    rw [h.1, hc] at this
    exact absurd this (by simp)
  | y :: ys, x :: xs, c, c', pre, pre' => by
    intro hpost hpre hc h
    simp only [List.cons_append, List.cons.injEq] at h
    exact split_unique p ys xs c c' pre pre'
      (fun e he => hpost e (List.mem_cons_of_mem _ he)) hpre hc h.2

theorem not_create_of_naming {e : Event} (h : e.isNaming = true) : e.isCreate = false := by
  cases e with
  | fetch r o => cases r <;> simp_all [Event.isNaming, Event.isProbe, Event.isRandom, Event.isResolve, Event.isCreate]
  | random d => rfl
  | resolve n => rfl

theorem not_create_of_delivery {e : Event} (h : e.isDelivery = true) : e.isCreate = false := by
  cases e with
  | fetch r o => cases r <;> simp_all [Event.isDelivery, Event.isCreate]
  | random d => rfl
  | resolve n => rfl

theorem not_resolve_of_delivery {e : Event} (h : e.isDelivery = true) : e.isResolve = false := by
  cases e with
  | fetch r o => rfl
  | random d => rfl
  | resolve n => simp [Event.isDelivery] at h

theorem deploy_log_valid (lib : Lib) (cfg : Config) (w : World) (req : Req) (file : File)
    (rawName : Str) (hv : validate lib cfg req = .ok (file, rawName)) :
    (deploy lib cfg w req).2 = (pipeline lib cfg w file rawName).2 := by
  simp only [deploy, hv]
  split <;> next heq => rw [heq]

theorem sendAll_resolved (tokenBot text : Str) (w : World)
    (hres : ∀ (l : Log) (id : Str), ∃ r, w.net l (.sendMessage tokenBot id text) = .resolved r) :
    ∀ (ids : List Str) (log : Log),
    (sendAll tokenBot text w ids log).1 = .ok () ∧
      sentTo (sendAll tokenBot text w ids log).2 = sentTo log ++ ids
  | [], log => by simp [sendAll]
  | id :: ids, log => by
    obtain ⟨r, hr⟩ := hres log id
    have ih := sendAll_resolved tokenBot text w hres ids
      (.fetch (.sendMessage tokenBot id text) (.resolved r) :: log)
    simp only [sendAll, hr]
    refine ⟨ih.1, ?_⟩
    rw [ih.2]
    simp [sentTo]

theorem logTelegram_ok (cfg : Config) (w : World) (file url : Str) (log : Log)
    (hres : ∀ (l : Log) (id text : Str), ∃ r, w.net l (.sendMessage cfg.tokenBot id text) = .resolved r) :
    (logTelegram cfg w file url log).1 = .ok () := by
  simp only [logTelegram]
  split
  · rfl
  · exact (sendAll_resolved cfg.tokenBot _ w (fun l id => hres l id _) _ log).1

theorem deploy_valid (lib : Lib) (cfg : Config) (w : World) (req : Req) (file : File)
    (rawName name : Str) (log1 : Log) (hv : validate lib cfg req = .ok (file, rawName))
    (hr : resolveName lib w rawName [] = (.ok name, log1)) :
    (deploy lib cfg w req).1 =
      match (provision lib cfg w file name log1).1 with
      | .ok url => ⟨200, .success url⟩
      | .error m => ⟨500, .error (if m = [] then "Deploy gagal".toList else m)⟩ := by
  simp only [deploy, hv, pipeline, hr]
  split <;> next heq => rw [heq]

/-! ## The name resolver -/

/-- C6: for every raw name, the base name computed by getUniqueName (trim, lowercase, strip,
slice to 30) contains only characters of [a-z0-9-_] and has length at most 30. -/
theorem baseName_normalized (lib : Lib) (rawName : Str) :
    (∀ c ∈ baseName lib rawName, allowedChar c = true) ∧ jsLength (baseName lib rawName) ≤ 30 := by
  refine ⟨baseName_allowed lib rawName, ?_⟩
  rw [jsLength_of_allowed _ (baseName_allowed lib rawName)]
  exact baseName_length lib rawName

/-- C7: when the first liveness probe, on the url of the base name, reports not live,
getUniqueName returns exactly the base name, and its only effect is that one probe: no call
of Math.random and no further remote call. -/
theorem getUniqueName_base_free (lib : Lib) (w : World) (rawName : Str) (log : Log)
    (hfree : (w.net (.resolve rawName :: log)
      (.head (siteUrl (baseName lib rawName)))).live = false) :
    getUniqueName lib w rawName log =
      (.ok (baseName lib rawName),
        .fetch (.head (siteUrl (baseName lib rawName)))
            (w.net (.resolve rawName :: log) (.head (siteUrl (baseName lib rawName)))) ::
          .resolve rawName :: log) := by
  simp only [getUniqueName, nameLoop, isSiteLive, hfree]

theorem getUniqueName_base_free_witness :
    ((scriptedWorld [] (.rejected []) (.rejected []) (.rejected [])).net
        (.resolve "Hello".toList :: []) (.head (siteUrl (baseName nodeLib "Hello".toList)))).live
      = false ∧
    getUniqueName nodeLib (scriptedWorld [] (.rejected []) (.rejected []) (.rejected []))
        "Hello".toList [] =
      (.ok (baseName nodeLib "Hello".toList),
        .fetch (.head (siteUrl (baseName nodeLib "Hello".toList)))
            ((scriptedWorld [] (.rejected []) (.rejected []) (.rejected [])).net
              (.resolve "Hello".toList :: []) (.head (siteUrl (baseName nodeLib "Hello".toList)))) ::
          .resolve "Hello".toList :: []) :=
  ⟨rfl, getUniqueName_base_free nodeLib _ "Hello".toList [] rfl⟩

/-- C8: when every liveness probe reports live, getUniqueName fails with the error
'Nama masih terpakai setelah 3x cek' after exactly 3 probes, which are its only remote
calls; it returns no name. -/
theorem getUniqueName_exhausted (lib : Lib) (w : World) (rawName : Str) (log : Log)
    (hlive : ∀ (l : Log) (url : Str), (w.net l (.head url)).live = true) :
    (getUniqueName lib w rawName log).1 = .error "Nama masih terpakai setelah 3x cek".toList ∧
      probes (getUniqueName lib w rawName log).2 = probes log + 3 ∧
      remoteCalls (getUniqueName lib w rawName log).2 = remoteCalls log + 3 := by
  have h := nameLoop_all_live w (baseName lib rawName) hlive 3 (baseName lib rawName) 0
    (.resolve rawName :: log) (by omega)
  simpa [getUniqueName, probes, remoteCalls, Event.isProbe, Event.isFetch] using h

theorem getUniqueName_exhausted_witness :
    (∀ (l : Log) (url : Str), (allLiveWorld.net l (.head url)).live = true) ∧
    ((getUniqueName nodeLib allLiveWorld "My Site!!".toList []).1 =
        .error "Nama masih terpakai setelah 3x cek".toList ∧
      probes (getUniqueName nodeLib allLiveWorld "My Site!!".toList []).2 = probes [] + 3 ∧
      remoteCalls (getUniqueName nodeLib allLiveWorld "My Site!!".toList []).2 =
        remoteCalls [] + 3) :=
  ⟨fun _ _ => rfl, getUniqueName_exhausted nodeLib allLiveWorld "My Site!!".toList []
    (fun _ _ => rfl)⟩

/-- C5 (amended): every name that getUniqueName returns consists only of characters of
[a-z0-9-_] and has length at most 34: the base name of at most 30 characters, alone or
followed by a suffix of 3 or 4 letters. -/
theorem getUniqueName_name (lib : Lib) (w : World) (rawName : Str) (log : Log) (name : Str)
    (h : (getUniqueName lib w rawName log).1 = .ok name) :
    (∀ c ∈ name, allowedChar c = true) ∧ jsLength name ≤ 34 := by
  have hb := baseName_allowed lib rawName
  have hl := baseName_length lib rawName
  have h2 := nameLoop_name w (baseName lib rawName) hb 3 (baseName lib rawName) 0
    (.resolve rawName :: log) name (getUniqueName lib w rawName log).2 ⟨hb, by omega⟩
    (Prod.ext h rfl)
  refine ⟨h2.1, ?_⟩
  rw [jsLength_of_allowed _ h2.1]
  omega

theorem getUniqueName_name_witness :
    (getUniqueName nodeLib (scriptedWorld ["mysite".toList] (.rejected []) (.rejected [])
        (.rejected [])) "My Site!!".toList []).1 = .ok "mysitennn".toList ∧
    ((∀ c ∈ "mysitennn".toList, allowedChar c = true) ∧ jsLength "mysitennn".toList ≤ 34) :=
  ⟨rfl, getUniqueName_name nodeLib
    (scriptedWorld ["mysite".toList] (.rejected []) (.rejected []) (.rejected []))
    "My Site!!".toList [] "mysitennn".toList rfl⟩

/-- C5 (as stated, refuted): a raw name of 30 letters, accepted by validation, whose site is
live resolves to a name of 33 characters; and the raw name "!!", accepted by validation,
resolves to the empty name. -/
theorem getUniqueName_long_or_empty_name :
    (jsLength longName = 30 ∧
      (getUniqueName nodeLib (scriptedWorld [longName] (.rejected []) (.rejected [])
        (.rejected [])) longName []).1 = .ok (longName ++ "nnn".toList) ∧
      jsLength (longName ++ "nnn".toList) = 33) ∧
    (jsLength "!!".toList = 2 ∧
      (getUniqueName nodeLib (scriptedWorld [] (.rejected []) (.rejected []) (.rejected []))
        "!!".toList []).1 = .ok [] ∧
      jsLength ([] : Str) = 0) :=
  ⟨⟨rfl, rfl, rfl⟩, rfl, rfl, rfl⟩

/-! ## Validation -/

/-- C3: a request without a file, with a file whose lowercased extension is not '.html',
without a provider token, or whose derived name is empty or outside 2-30 characters, is
answered with an error payload (status 400, or 500 for the missing token) and its log is
empty: no liveness probe, no provider call, no notification send. -/
theorem deploy_invalid_no_remote_call (lib : Lib) (cfg : Config) (w : World) (req : Req)
    (h : req.file = none ∨ ∃ file, req.file = some file ∧
      (lib.toLowerCase (lib.extname file.originalname) ≠ ".html".toList ∨ cfg.token = [] ∨
        rawNameOf lib req file = [] ∨ jsLength (rawNameOf lib req file) < 2 ∨
        jsLength (rawNameOf lib req file) > 30)) :
    (deploy lib cfg w req).2 = [] ∧ remoteCalls (deploy lib cfg w req).2 = 0 ∧
      ∃ msg, (deploy lib cfg w req).1.body = .error msg ∧
        ((deploy lib cfg w req).1.status = 400 ∨ (deploy lib cfg w req).1.status = 500) := by
  have hv : ∃ res msg, validate lib cfg req = .error res ∧ res.body = .error msg ∧
      (res.status = 400 ∨ res.status = 500) := by
    rcases h with h | ⟨file, hf, h⟩
    · refine ⟨⟨400, .error "File HTML tidak diterima".toList⟩, _, ?_, rfl, Or.inl rfl⟩
      simp only [validate, h]
    · simp only [validate, hf]
      by_cases h1 : lib.toLowerCase (lib.extname file.originalname) ≠ ".html".toList
      · exact ⟨⟨400, .error "Hanya menerima file .html".toList⟩, _, by rw [if_pos h1], rfl,
          Or.inl rfl⟩
      · rw [if_neg h1]
        by_cases h2 : cfg.token = []
        · exact ⟨⟨500, .error "token belum di-set".toList⟩, _, by rw [if_pos h2], rfl,
            Or.inr rfl⟩
        · rw [if_neg h2]
          have h3 : rawNameOf lib req file = [] ∨ jsLength (rawNameOf lib req file) < 2 ∨
              jsLength (rawNameOf lib req file) > 30 := by
            rcases h with h | h | h
            · exact absurd h h1
            · exact absurd h h2
            · exact h
          exact ⟨⟨400, .error "Nama project 2-30 karakter".toList⟩, _, by rw [if_pos h3], rfl,
            Or.inl rfl⟩
  obtain ⟨res, msg, hres, hbody, hstatus⟩ := hv
  have hd : deploy lib cfg w req = (res, []) := by simp only [deploy, hres]
  rw [hd]
  exact ⟨rfl, rfl, msg, hbody, hstatus⟩

theorem deploy_invalid_no_remote_call_witness :
    ((⟨some ⟨"photo.PNG".toList, []⟩, none⟩ : Req).file = none ∨
      ∃ file, (⟨some ⟨"photo.PNG".toList, []⟩, none⟩ : Req).file = some file ∧
      (nodeLib.toLowerCase (nodeLib.extname file.originalname) ≠ ".html".toList ∨
        tokenOnly.token = [] ∨
        rawNameOf nodeLib ⟨some ⟨"photo.PNG".toList, []⟩, none⟩ file = [] ∨
        jsLength (rawNameOf nodeLib ⟨some ⟨"photo.PNG".toList, []⟩, none⟩ file) < 2 ∨
        jsLength (rawNameOf nodeLib ⟨some ⟨"photo.PNG".toList, []⟩, none⟩ file) > 30)) ∧
    ((deploy nodeLib tokenOnly allLiveWorld ⟨some ⟨"photo.PNG".toList, []⟩, none⟩).2 = [] ∧
      remoteCalls (deploy nodeLib tokenOnly allLiveWorld ⟨some ⟨"photo.PNG".toList, []⟩, none⟩).2 = 0 ∧
      ∃ msg, (deploy nodeLib tokenOnly allLiveWorld
          ⟨some ⟨"photo.PNG".toList, []⟩, none⟩).1.body = .error msg ∧
        ((deploy nodeLib tokenOnly allLiveWorld
            ⟨some ⟨"photo.PNG".toList, []⟩, none⟩).1.status = 400 ∨
          (deploy nodeLib tokenOnly allLiveWorld
            ⟨some ⟨"photo.PNG".toList, []⟩, none⟩).1.status = 500)) :=
  ⟨Or.inr ⟨_, rfl, Or.inl (by decide)⟩,
    deploy_invalid_no_remote_call nodeLib tokenOnly allLiveWorld
      ⟨some ⟨"photo.PNG".toList, []⟩, none⟩ (Or.inr ⟨_, rfl, Or.inl (by decide)⟩)⟩

/-- C4 (amended): with an .html file, a provider token and a name in the name field, a name
whose length after trimming and escaping is 1 or 31 is answered with the 400 error
'Nama project 2-30 karakter' before any other step, and a name whose length after trimming
and escaping is 2 or 30 passes validation and the handler enters getUniqueName with it. -/
theorem validate_name_length (lib : Lib) (cfg : Config) (w : World) (req : Req) (file : File)
    (n : Str) (hfile : req.file = some file)
    (hext : lib.toLowerCase (lib.extname file.originalname) = ".html".toList)
    (htoken : cfg.token ≠ []) (hname : req.name = some n) (hn : n ≠ []) :
    ((jsLength (lib.escape (trim n)) = 1 ∨ jsLength (lib.escape (trim n)) = 31) →
      deploy lib cfg w req = (⟨400, .error "Nama project 2-30 karakter".toList⟩, [])) ∧
    ((jsLength (lib.escape (trim n)) = 2 ∨ jsLength (lib.escape (trim n)) = 30) →
      validate lib cfg req = .ok (file, lib.escape (trim n)) ∧
      ∃ later, (deploy lib cfg w req).2 = later ++ [.resolve (lib.escape (trim n))]) := by
  have hraw : rawNameOf lib req file = lib.escape (trim n) := by
    simp only [rawNameOf, givenName, hname, if_neg hn]
  constructor
  · intro h
    have h3 : rawNameOf lib req file = [] ∨ jsLength (rawNameOf lib req file) < 2 ∨
        jsLength (rawNameOf lib req file) > 30 := by
      rw [hraw]
      omega
    have hv : validate lib cfg req = .error ⟨400, .error "Nama project 2-30 karakter".toList⟩ := by
      simp only [validate, hfile, hext, ne_eq, not_true_eq_false, if_false, if_neg htoken,
        if_pos h3]
    simp only [deploy, hv]
  · intro h
    have h3 : ¬ (rawNameOf lib req file = [] ∨ jsLength (rawNameOf lib req file) < 2 ∨
        jsLength (rawNameOf lib req file) > 30) := by
      rw [hraw]
      intro h4
      rcases h4 with h4 | h4 | h4
      · rw [h4] at h
        simp [jsLength] at h
      · omega
      · omega
    have hv : validate lib cfg req = .ok (file, lib.escape (trim n)) := by
      simp only [validate, hfile, hext, ne_eq, not_true_eq_false, if_false, if_neg htoken,
        if_neg h3]
      rw [hraw]
    refine ⟨hv, ?_⟩
    rw [deploy_log_valid lib cfg w req file _ hv]
    obtain ⟨new, h1, _⟩ := resolveName_log lib w (lib.escape (trim n)) []
    simp only [pipeline]
    split
    · next e log1 heq =>
      have hlog := congrArg Prod.snd heq
      simp only [h1] at hlog
      exact ⟨new, hlog.symm⟩
    · next name log1 heq =>
      have hlog := congrArg Prod.snd heq
      simp only [h1] at hlog
      obtain ⟨post, h4, _⟩ := provision_log lib cfg w file name log1
      refine ⟨post ++ .fetch (.createProject cfg.token name)
        (w.net log1 (.createProject cfg.token name)) :: new, ?_⟩
      rw [h4, ← hlog]
      simp

theorem validate_name_length_witness :
    (jsLength (nodeLib.escape (trim " ab ".toList)) = 2 ∨
      jsLength (nodeLib.escape (trim " ab ".toList)) = 30) ∧
    (validate nodeLib tokenOnly ⟨some ⟨"a.html".toList, []⟩, some " ab ".toList⟩ =
        .ok (⟨"a.html".toList, []⟩, nodeLib.escape (trim " ab ".toList)) ∧
      ∃ later, (deploy nodeLib tokenOnly allLiveWorld
        ⟨some ⟨"a.html".toList, []⟩, some " ab ".toList⟩).2 =
          later ++ [.resolve (nodeLib.escape (trim " ab ".toList))]) :=
  ⟨Or.inl rfl, (validate_name_length nodeLib tokenOnly allLiveWorld
    ⟨some ⟨"a.html".toList, []⟩, some " ab ".toList⟩ ⟨"a.html".toList, []⟩ " ab ".toList
    rfl rfl (by decide) rfl (by decide)).2 (Or.inl rfl)⟩

/-- C4 (as stated, refuted): the name "&", of length 1, passes validation as "&amp;" and is
deployed as amp; a name of 30 characters that ends in "&" is answered with the 400 error
'Nama project 2-30 karakter'. -/
theorem validate_measures_escaped_name :
    (jsLength (trim "&".toList) = 1 ∧
      validate nodeLib tokenOnly ⟨some ⟨"a.html".toList, []⟩, some "&".toList⟩ =
        .ok (⟨"a.html".toList, []⟩, "&amp;".toList) ∧
      (deploy nodeLib tokenOnly (providerWorld deployedJson (.rejected []))
        ⟨some ⟨"a.html".toList, []⟩, some "&".toList⟩).1 =
        ⟨200, .success "https://amp.vercel.app".toList⟩) ∧
    (jsLength (trim (List.replicate 29 'a' ++ "&".toList)) = 30 ∧
      deploy nodeLib tokenOnly (providerWorld deployedJson (.rejected []))
        ⟨some ⟨"a.html".toList, []⟩, some (List.replicate 29 'a' ++ "&".toList)⟩ =
        (⟨400, .error "Nama project 2-30 karakter".toList⟩, [])) :=
  ⟨⟨rfl, rfl, rfl⟩, rfl, rfl⟩

/-! ## Notification -/

/-- C9 (amended): with a notification channel configured, when every send settles with a
response, whatever its status, logTelegram returns normally and has attempted a send to
every recipient of the list, in order. -/
theorem logTelegram_sends_all (cfg : Config) (w : World) (file url : Str) (log : Log)
    (hbot : cfg.tokenBot ≠ []) (hids : cfg.chatIds ≠ [])
    (hres : ∀ (l : Log) (id text : Str),
      ∃ r, w.net l (.sendMessage cfg.tokenBot id text) = .resolved r) :
    (logTelegram cfg w file url log).1 = .ok () ∧
      sentTo (logTelegram cfg w file url log).2 = sentTo log ++ recipients cfg.chatIds := by
  have hcfg : ¬ (cfg.tokenBot = [] ∨ cfg.chatIds = []) := by
    intro h
    rcases h with h | h
    · exact hbot h
    · exact hids h
  simp only [logTelegram, if_neg hcfg]
  exact sendAll_resolved cfg.tokenBot _ w (fun l id => hres l id _) _ log

theorem logTelegram_sends_all_witness :
    (recipients notifyConfig.chatIds = ["111".toList, "222".toList]) ∧
    ((logTelegram notifyConfig (providerWorld deployedJson (respond 403 [] .null))
        "hello.html".toList (siteUrl "hello".toList) []).1 = .ok () ∧
      sentTo (logTelegram notifyConfig (providerWorld deployedJson (respond 403 [] .null))
        "hello.html".toList (siteUrl "hello".toList) []).2 =
        sentTo [] ++ recipients notifyConfig.chatIds) :=
  ⟨rfl, logTelegram_sends_all notifyConfig (providerWorld deployedJson (respond 403 [] .null))
    "hello.html".toList (siteUrl "hello".toList) [] (by decide) (by decide)
    (fun _ _ _ => ⟨_, rfl⟩)⟩

/-- C9 (as stated, refuted): with the two recipients 111 and 222, when the send to 111 is
rejected, logTelegram throws and no send to 222 is attempted. -/
theorem logTelegram_stops_at_rejected_send :
    recipients notifyConfig.chatIds = ["111".toList, "222".toList] ∧
    (logTelegram notifyConfig (providerWorld deployedJson (.rejected "socket hang up".toList))
      "hello.html".toList (siteUrl "hello".toList) []).1 = .error "socket hang up".toList ∧
    sentTo (logTelegram notifyConfig
      (providerWorld deployedJson (.rejected "socket hang up".toList))
      "hello.html".toList (siteUrl "hello".toList) []).2 = ["111".toList] :=
  ⟨rfl, rfl, rfl⟩

/-! ## The handler -/

/-- C10: in every request the handler enters getUniqueName at most 3 times, and whenever its
log holds the project-creation call for a name, the most recent liveness probe before that
call was a probe of the url of that name that reported not live. -/
theorem deploy_creates_on_free_name (lib : Lib) (cfg : Config) (w : World) (req : Req) :
    resolutions (deploy lib cfg w req).2 ≤ 3 ∧
    ∀ (post pre : Log) (token name : Str) (out : Outcome),
      (deploy lib cfg w req).2 = post ++ .fetch (.createProject token name) out :: pre →
      lastProbe pre = some (siteUrl name, false) := by
  cases hv : validate lib cfg req with
  | error res =>
    have hd : (deploy lib cfg w req).2 = [] := by simp only [deploy, hv]
    rw [hd]
    refine ⟨by simp [resolutions], ?_⟩
    intro post pre token name out h
    simp at h
  | ok p =>
    obtain ⟨file, rawName⟩ := p
    rw [deploy_log_valid lib cfg w req file rawName hv]
    obtain ⟨new, h1, h2, h3⟩ := resolveName_log lib w rawName []
    have hnaming : ∀ e ∈ new ++ [Event.resolve rawName], e.isNaming = true := by
      intro e he
      rcases List.mem_append.mp he with he | he
      · exact h2 e he
      · simp only [List.mem_singleton] at he
        subst he
        rfl
    have hcount : resolutions (new ++ [Event.resolve rawName]) ≤ 3 := by
      rw [resolutions_append]
      simp only [resolutions, List.countP_cons, List.countP_nil, Event.isResolve] at h3 ⊢
      simp
      omega
    simp only [pipeline]
    split
    · next e log1 heq =>
      have hlog := congrArg Prod.snd heq
      simp only [h1] at hlog
      rw [← hlog]
      refine ⟨hcount, ?_⟩
      intro post pre token name out h
      have hmem : Event.fetch (.createProject token name) out ∈ new ++ [Event.resolve rawName] := by
        have h' : new ++ [Event.resolve rawName] =
            post ++ Event.fetch (.createProject token name) out :: pre := h
        rw [h']
        simp
      have := not_create_of_naming (hnaming _ hmem)
      simp [Event.isCreate] at this
    · next name log1 heq =>
      have hlog := congrArg Prod.snd heq
      simp only [h1] at hlog
      obtain ⟨post0, h4, h5⟩ := provision_log lib cfg w file name log1
      rw [h4]
      constructor
      · rw [resolutions_append]
        have h6 : resolutions post0 = 0 :=
          countP_of_forall_false _ post0 (fun e he => not_resolve_of_delivery (h5 e he))
        have h7 : resolutions (Event.fetch (.createProject cfg.token name)
            (w.net log1 (.createProject cfg.token name)) :: log1) = resolutions log1 := by
          simp [resolutions, Event.isResolve]
        rw [h6, h7, ← hlog]
        omega
      · intro post pre token name' out h
        have hu := split_unique Event.isCreate post0 post
          (.fetch (.createProject cfg.token name) (w.net log1 (.createProject cfg.token name)))
          (.fetch (.createProject token name') out) log1 pre
          (fun e he => not_create_of_delivery (h5 e he))
          (fun e he => not_create_of_naming (hnaming e (by rw [hlog]; exact he)))
          rfl h
        obtain ⟨hc, hpre⟩ := hu
        simp only [Event.fetch.injEq, Request.createProject.injEq] at hc
        rw [hpre, hc.1.2]
        exact resolveName_ok lib w rawName [] name log1 heq

theorem deploy_creates_on_free_name_witness :
    (deploy nodeLib tokenOnly (providerWorld deployedJson (.rejected [])) helloReq).2 =
      [.fetch (.createDeployment "tok".toList "hello".toList [60, 112, 62, 104, 105])
        (respond 200 [] deployedJson)] ++
      .fetch (.createProject "tok".toList "hello".toList) (respond 200 [] .null) ::
      (resolveName nodeLib (providerWorld deployedJson (.rejected [])) "hello".toList []).2 ∧
    lastProbe (resolveName nodeLib (providerWorld deployedJson (.rejected []))
      "hello".toList []).2 = some (siteUrl "hello".toList, false) :=
  ⟨rfl, (deploy_creates_on_free_name nodeLib tokenOnly
    (providerWorld deployedJson (.rejected [])) helloReq).2
    [.fetch (.createDeployment "tok".toList "hello".toList [60, 112, 62, 104, 105])
      (respond 200 [] deployedJson)]
    (resolveName nodeLib (providerWorld deployedJson (.rejected [])) "hello".toList []).2
    "tok".toList "hello".toList (respond 200 [] .null) rfl⟩

/-- C1 (amended): for an upload that passes validation and resolves to a name, whose project
creation and deployment both succeed, the handler answers { message: 'Deploy sukses', url }
whenever every send to the messaging endpoint settles with a response, whatever its status:
an error status of the messaging endpoint never changes the answer. -/
theorem deploy_success_when_sends_settle (lib : Lib) (cfg : Config) (w : World) (req : Req)
    (file : File) (rawName name : Str) (log1 : Log)
    (hv : validate lib cfg req = .ok (file, rawName))
    (hr : resolveName lib w rawName [] = (.ok name, log1))
    (hcreate : ∀ l : Log, ∃ r, w.net l (.createProject cfg.token name) = .resolved r ∧ r.ok = true)
    (hdeploy : ∀ l : Log, ∃ r j, w.net l (.createDeployment cfg.token name file.buffer) =
      .resolved r ∧ r.ok = true ∧ r.json = .ok j)
    (hsend : ∀ (l : Log) (id text : Str),
      ∃ r, w.net l (.sendMessage cfg.tokenBot id text) = .resolved r) :
    (deploy lib cfg w req).1 = ⟨200, .success (siteUrl name)⟩ := by
  rw [deploy_valid lib cfg w req file rawName name log1 hv hr]
  obtain ⟨r, hr1, hr2⟩ := hcreate log1
  obtain ⟨d, j, hd1, hd2, hd3⟩ := hdeploy
    (.fetch (.createProject cfg.token name) (w.net log1 (.createProject cfg.token name)) :: log1)
  have ht := logTelegram_ok cfg w file.originalname (siteUrl name)
    (.fetch (.createDeployment cfg.token name file.buffer)
        (w.net (.fetch (.createProject cfg.token name)
          (w.net log1 (.createProject cfg.token name)) :: log1)
          (.createDeployment cfg.token name file.buffer)) ::
      .fetch (.createProject cfg.token name) (w.net log1 (.createProject cfg.token name)) :: log1)
    hsend
  have hp : (provision lib cfg w file name log1).1 = .ok (siteUrl name) := by
    simp only [provision]
    split
    · next m heq => rw [hr1] at heq; simp at heq
    · next r' heq =>
      rw [hr1] at heq
      simp only [Outcome.resolved.injEq] at heq
      subst heq
      simp only [hr2, Bool.not_true, Bool.false_eq_true, if_false]
      split
      · next m heq => rw [hd1] at heq; simp at heq
      · next d' heq =>
        rw [hd1] at heq
        simp only [Outcome.resolved.injEq] at heq
        subst heq
        simp only [hd3, hd2, Bool.not_true, Bool.false_eq_true, if_false]
        split
        · next m log3 heq =>
          rw [congrArg Prod.fst heq] at ht
          simp at ht
        · rfl
  rw [hp]

theorem deploy_success_when_sends_settle_witness :
    (validate nodeLib notifyConfig helloReq =
        .ok (⟨"hello.html".toList, [60, 112, 62, 104, 105]⟩, "hello".toList) ∧
      (resolveName nodeLib (providerWorld deployedJson (respond 403 [] .null))
        "hello".toList []).1 = .ok "hello".toList) ∧
    (deploy nodeLib notifyConfig (providerWorld deployedJson (respond 403 [] .null))
      helloReq).1 = ⟨200, .success (siteUrl "hello".toList)⟩ :=
  ⟨⟨rfl, rfl⟩, deploy_success_when_sends_settle nodeLib notifyConfig
    (providerWorld deployedJson (respond 403 [] .null)) helloReq
    ⟨"hello.html".toList, [60, 112, 62, 104, 105]⟩ "hello".toList "hello".toList
    (resolveName nodeLib (providerWorld deployedJson (respond 403 [] .null))
      "hello".toList []).2
    rfl rfl (fun _ => ⟨_, rfl, rfl⟩) (fun _ => ⟨_, _, rfl, rfl, rfl⟩) (fun _ _ _ => ⟨_, rfl⟩)⟩

/-- C1 (as stated, refuted): hello.html passes validation, the project is created and the
deployment succeeds, and the send to the first recipient is rejected: the handler answers
500 with the message of that rejection. -/
theorem deploy_fails_when_send_rejected :
    validate nodeLib notifyConfig helloReq =
      .ok (⟨"hello.html".toList, [60, 112, 62, 104, 105]⟩, "hello".toList) ∧
    (deploy nodeLib notifyConfig
      (providerWorld deployedJson (.rejected "socket hang up".toList)) helloReq).1 =
      ⟨500, .error "socket hang up".toList⟩ ∧
    (deploy nodeLib notifyConfig
      (providerWorld deployedJson (.rejected "socket hang up".toList)) helloReq).2 =
      [.fetch (.sendMessage "bot".toList "111".toList
          (telegramText "hello.html".toList (siteUrl "hello".toList) "1/1/2025, 00.00.00".toList))
          (.rejected "socket hang up".toList),
        .fetch (.createDeployment "tok".toList "hello".toList [60, 112, 62, 104, 105])
          (respond 200 [] deployedJson),
        .fetch (.createProject "tok".toList "hello".toList) (respond 200 [] .null),
        .fetch (.head (siteUrl "hello".toList)) (.rejected "getaddrinfo ENOTFOUND".toList),
        .fetch (.head (siteUrl "hello".toList)) (.rejected "getaddrinfo ENOTFOUND".toList),
        .resolve "hello".toList] :=
  ⟨rfl, rfl, rfl⟩

/-- C2 (amended): after a successful project creation, a deployment answer with a
non-success status makes the handler answer 500 with an error payload; a deployment answer
with a success status and a JSON body is not a failure, whatever the body holds: without a
notification channel the handler answers { message: 'Deploy sukses', url }. -/
theorem deploy_deployment_status (lib : Lib) (cfg : Config) (w : World) (req : Req)
    (file : File) (rawName name : Str) (log1 : Log) (deployRes : Response)
    (hv : validate lib cfg req = .ok (file, rawName))
    (hr : resolveName lib w rawName [] = (.ok name, log1))
    (hcreate : ∀ l : Log, ∃ r, w.net l (.createProject cfg.token name) = .resolved r ∧ r.ok = true)
    (hdeploy : ∀ l : Log, w.net l (.createDeployment cfg.token name file.buffer) =
      .resolved deployRes) :
    (deployRes.ok = false → ∃ msg, (deploy lib cfg w req).1 = ⟨500, .error msg⟩) ∧
    (deployRes.ok = true → ∀ j, deployRes.json = .ok j → cfg.tokenBot = [] →
      (deploy lib cfg w req).1 = ⟨200, .success (siteUrl name)⟩) := by
  rw [deploy_valid lib cfg w req file rawName name log1 hv hr]
  obtain ⟨r, hr1, hr2⟩ := hcreate log1
  constructor
  · intro hbad
    have hp : ∃ m, (provision lib cfg w file name log1).1 = .error m := by
      simp only [provision, hr1, hr2, hdeploy, Bool.not_true, Bool.false_eq_true, if_false,
        hbad, Bool.not_false, if_true]
      split
      · exact ⟨_, rfl⟩
      · exact ⟨_, rfl⟩
    obtain ⟨m, hm⟩ := hp
    rw [hm]
    exact ⟨_, rfl⟩
  · intro hgood j hj hbot
    have hp : (provision lib cfg w file name log1).1 = .ok (siteUrl name) := by
      simp only [provision, hr1, hr2, hdeploy, Bool.not_true, Bool.false_eq_true, if_false,
        hgood, hj, logTelegram, hbot, true_or, if_true]
    rw [hp]

theorem deploy_deployment_status_witness :
    (validate nodeLib tokenOnly helloReq =
        .ok (⟨"hello.html".toList, [60, 112, 62, 104, 105]⟩, "hello".toList) ∧
      (⟨403, .ok [], .ok errorJson⟩ : Response).ok = false) ∧
    ∃ msg, (deploy nodeLib tokenOnly
      (scriptedWorld [] (respond 200 [] .null) (respond 403 [] errorJson) (.rejected []))
      helloReq).1 = ⟨500, .error msg⟩ :=
  ⟨⟨rfl, rfl⟩, (deploy_deployment_status nodeLib tokenOnly
    (scriptedWorld [] (respond 200 [] .null) (respond 403 [] errorJson) (.rejected []))
    helloReq ⟨"hello.html".toList, [60, 112, 62, 104, 105]⟩ "hello".toList "hello".toList
    (resolveName nodeLib
      (scriptedWorld [] (respond 200 [] .null) (respond 403 [] errorJson) (.rejected []))
      "hello".toList []).2
    ⟨403, .ok [], .ok errorJson⟩ rfl rfl (fun _ => ⟨_, rfl, rfl⟩) (fun _ => rfl)).1 rfl⟩

/-- C2 (as stated, refuted): after a successful project creation, a deployment answer with
status 200 whose JSON body has an error member is answered with
{ message: 'Deploy sukses', url }. -/
theorem deploy_accepts_error_body :
    errorJson.hasErrorField = true ∧
    (deploy nodeLib tokenOnly (providerWorld errorJson (.rejected [])) helloReq).1 =
      ⟨200, .success "https://hello.vercel.app".toList⟩ :=
  ⟨rfl, rfl⟩

end DeployVercel
